import Mathlib

/-!
Verification of the charmed-openstack-upgrader core against its
specification.  The Python sources are shallowly embedded: dataclasses
become structures, fallible methods return `Except`, the async remote
collaborator is factored out by passing its observed answers as explicit
arguments, and the corrective commands a routine would issue are returned
as a list.
-/

set_option maxHeartbeats 1000000

namespace Cou

/-- An OpenStack release as used by the sources: a codename together with
its numeric rank (its position in the canonical ordered codename
sequence).  `OpenStackRelease` objects compare by rank. -/
structure OSRelease where
  codename : String
  rank : Nat
deriving DecidableEq, Repr

/-- Errors raised by the deployment entity model
(`cou.exceptions.MismatchedOpenStackVersions`). -/
inductive COUError where
  | MismatchedOpenStackVersions
deriving DecidableEq, Repr

/-- The per-unit dictionary built by `Application.__post_init__`:
`{"workload_version": ..., "os_version": ...}` where `os_version` is
`None` when no compatible release was found. -/
structure UnitDetails where
  workload_version : String
  os_version : Option OSRelease
deriving DecidableEq, Repr

/-- `cou.apps.app.Application` after `__post_init__`: the fields derived
from the status snapshot are stored directly; `units` is the ordered
unit-name → details mapping populated at construction time. -/
structure Application where
  name : String
  model_name : String
  charm : String
  charm_origin : String
  os_origin : String
  channel : String
  units : List (String × UnitDetails)
deriving DecidableEq, Repr

/-- The set comprehension in `current_os_release`:
`{unit_values.get("os_version") for unit_values in self.units.values()}`.
A Python set is a duplicate-free collection, embedded as `dedup` of the
value list. -/
def Application.os_versions (app : Application) : List (Option OSRelease) :=
  (app.units.map (fun u => u.2.os_version)).dedup

/-- `Application.current_os_release` (src/cou/apps/app.py lines 147-174):
empty set → `None`; singleton set → its element (`pop`); otherwise raise
`MismatchedOpenStackVersions`. -/
def Application.current_os_release (app : Application) :
    Except COUError (Option OSRelease) :=
  let os_versions := app.os_versions
  if os_versions.isEmpty then Except.ok none
  else if os_versions.length = 1 then Except.ok (os_versions.headD none)
  else Except.error COUError.MismatchedOpenStackVersions

/-- A duplicate-free nonempty list whose elements are all equal to `a` is
`[a]`. -/
theorem nodup_all_eq_singleton {α : Type} (l : List α) (a : α)
    (hnd : l.Nodup) (hne : l ≠ []) (hall : ∀ x ∈ l, x = a) : l = [a] := by
  cases l with
  | nil => exact absurd rfl hne
  | cons x t =>
    have hx : x = a := hall x (List.mem_cons_self x t)
    subst hx
    cases t with
    | nil => rfl
    | cons y s =>
      have hy : y = x := hall y (by simp)
      rw [List.nodup_cons] at hnd
      exact absurd (hy ▸ List.mem_cons_self y s) hnd.1

/-- A list containing two distinct elements is neither empty nor a
singleton. -/
theorem two_mem_not_small {α : Type} (l : List α) (a b : α)
    (ha : a ∈ l) (hb : b ∈ l) (hab : a ≠ b) :
    l.isEmpty = false ∧ l.length ≠ 1 := by
  cases l with
  | nil => simp at ha
  | cons x t =>
    cases t with
    | nil =>
      simp at ha hb
      exact absurd (ha.trans hb.symm) hab
    | cons y s => simp

/-- Application with no units (e.g. a subordinate whose status carries no
unit entries). -/
def appNoUnits : Application :=
  ⟨"keystone-ldap", "m", "keystone-ldap", "ch", "", "ussuri/stable", []⟩

/-- Application whose units all resolve to the same release. -/
def appAgreed : Application :=
  ⟨"keystone", "m", "keystone", "ch", "distro", "ussuri/stable",
    [("keystone/0", ⟨"17.0.1", some ⟨"ussuri", 1⟩⟩),
     ("keystone/1", ⟨"17.0.1", some ⟨"ussuri", 1⟩⟩)]⟩

/-- Application whose units resolve to two distinct releases. -/
def appMismatched : Application :=
  ⟨"cinder", "m", "cinder", "ch", "distro", "ussuri/stable",
    [("cinder/0", ⟨"16.4.2", some ⟨"ussuri", 1⟩⟩),
     ("cinder/1", ⟨"17.0.1", some ⟨"victoria", 2⟩⟩)]⟩

/-- Application whose units are all unresolved. -/
def appAllUnresolved : Application :=
  ⟨"my-app", "m", "my-charm", "ch", "", "stable",
    [("my-app/0", ⟨"1.0", none⟩), ("my-app/1", ⟨"2.0", none⟩)]⟩

/-- Application with one resolved and one unresolved unit. -/
def appPartialResolved : Application :=
  ⟨"glance", "m", "glance", "ch", "distro", "ussuri/stable",
    [("glance/0", ⟨"20.0.0", some ⟨"ussuri", 1⟩⟩),
     ("glance/1", ⟨"0.0", none⟩)]⟩

/-- C1: `current_os_release` returns unresolved (`None`) for an
application with zero units without error; returns the common release
when the application has at least one unit and every unit resolves to
the same release; and raises `MismatchedOpenStackVersions` when the
units carry at least two distinct resolved releases. -/
theorem current_os_release_cases (app : Application) (r r1 r2 : OSRelease) :
    (app.units = [] → app.current_os_release = Except.ok none) ∧
    (app.units ≠ [] → (∀ u ∈ app.units, u.2.os_version = some r) →
      app.current_os_release = Except.ok (some r)) ∧
    (some r1 ∈ app.units.map (fun u => u.2.os_version) →
      some r2 ∈ app.units.map (fun u => u.2.os_version) → r1 ≠ r2 →
      app.current_os_release = Except.error COUError.MismatchedOpenStackVersions) := by
  refine ⟨?_, ?_, ?_⟩
  · intro h
    simp [Application.current_os_release, Application.os_versions, h]
  · intro hne hall
    have hsing : app.os_versions = [some r] := by
      apply nodup_all_eq_singleton _ _ (List.nodup_dedup _)
      · intro hd
        rw [List.dedup_eq_nil] at hd
        exact hne (by simpa using hd)
      · intro x hx
        rw [List.mem_dedup, List.mem_map] at hx
        obtain ⟨u, hu, hux⟩ := hx
        rw [← hux]
        exact hall u hu
    simp [Application.current_os_release, hsing]
  · intro h1 h2 hner
    have h1d : some r1 ∈ app.os_versions := List.mem_dedup.mpr h1
    have h2d : some r2 ∈ app.os_versions := List.mem_dedup.mpr h2
    have hsmall := two_mem_not_small _ _ _ h1d h2d (by simpa using hner)
    simp [Application.current_os_release, hsmall.1, hsmall.2]

/-- Witness for C1 at concrete applications. -/
theorem current_os_release_cases_witness :
    appNoUnits.current_os_release = Except.ok none ∧
    appAgreed.current_os_release = Except.ok (some ⟨"ussuri", 1⟩) ∧
    appMismatched.current_os_release =
      Except.error COUError.MismatchedOpenStackVersions :=
  ⟨(current_os_release_cases appNoUnits ⟨"ussuri", 1⟩ ⟨"u", 0⟩ ⟨"v", 0⟩).1 rfl,
   (current_os_release_cases appAgreed ⟨"ussuri", 1⟩ ⟨"u", 0⟩ ⟨"v", 0⟩).2.1
     (by decide) (by decide),
   (current_os_release_cases appMismatched ⟨"u", 0⟩ ⟨"ussuri", 1⟩
     ⟨"victoria", 2⟩).2.2 (by decide) (by decide) (by decide)⟩

/-- C9: with at least one unit and every unit unresolved,
`current_os_release` returns unresolved (`None`) without raising, since
the set is the singleton `{None}`; and with one unit resolved to a
release and another unresolved it raises `MismatchedOpenStackVersions`,
because `None` counts as one distinct value in the comparison set. -/
theorem current_os_release_unresolved (app : Application) (r : OSRelease) :
    (app.units ≠ [] → (∀ u ∈ app.units, u.2.os_version = none) →
      app.current_os_release = Except.ok none) ∧
    (some r ∈ app.units.map (fun u => u.2.os_version) →
      none ∈ app.units.map (fun u => u.2.os_version) →
      app.current_os_release = Except.error COUError.MismatchedOpenStackVersions) := by
  constructor
  · intro hne hall
    have hsing : app.os_versions = [none] := by
      apply nodup_all_eq_singleton _ _ (List.nodup_dedup _)
      · intro hd
        rw [List.dedup_eq_nil] at hd
        exact hne (by simpa using hd)
      · intro x hx
        rw [List.mem_dedup, List.mem_map] at hx
        obtain ⟨u, hu, hux⟩ := hx
        rw [← hux]
        exact hall u hu
    simp [Application.current_os_release, hsing]
  · intro h1 h2
    have h1d : some r ∈ app.os_versions := List.mem_dedup.mpr h1
    have h2d : (none : Option OSRelease) ∈ app.os_versions := List.mem_dedup.mpr h2
    have hsmall := two_mem_not_small _ _ _ h1d h2d (by simp)
    simp [Application.current_os_release, hsmall.1, hsmall.2]

/-- Witness for C9 at concrete applications. -/
theorem current_os_release_unresolved_witness :
    appAllUnresolved.current_os_release = Except.ok none ∧
    appPartialResolved.current_os_release =
      Except.error COUError.MismatchedOpenStackVersions :=
  ⟨(current_os_release_unresolved appAllUnresolved ⟨"u", 0⟩).1
     (by decide) (by decide),
   (current_os_release_unresolved appPartialResolved ⟨"ussuri", 1⟩).2
     (by decide) (by decide)⟩

/-- `Application.__eq__` (src/cou/apps/app.py lines 101-109):
`other.name == self.name and other.charm == self.charm`. -/
def Application.eqPy (self other : Application) : Bool :=
  (other.name == self.name) && (other.charm == self.charm)

/-- `Application.__hash__` (src/cou/apps/app.py lines 93-99):
`hash(f"{self.name}{self.charm}")`, abstracted over the interpreter's
opaque string-hash function. -/
def Application.hashPy (pyHash : String → Int) (self : Application) : Int :=
  pyHash (self.name ++ self.charm)

/-- C7: two `Application` values are equal iff their `(name, charm)`
pairs agree, independent of all other fields; and equality implies equal
hashes, the hash being derived from the same pair. -/
theorem application_identity_key (a b : Application) (pyHash : String → Int) :
    (Application.eqPy a b = true ↔ (a.name = b.name ∧ a.charm = b.charm)) ∧
    (Application.eqPy a b = true →
      Application.hashPy pyHash a = Application.hashPy pyHash b) := by
  constructor
  · simp only [Application.eqPy, Bool.and_eq_true, beq_iff_eq]
    constructor
    · rintro ⟨h1, h2⟩
      exact ⟨h1.symm, h2.symm⟩
    · rintro ⟨h1, h2⟩
      exact ⟨h1.symm, h2.symm⟩
  · intro h
    simp only [Application.eqPy, Bool.and_eq_true, beq_iff_eq] at h
    simp [Application.hashPy, h.1, h.2]

/-- Two applications agreeing on `(name, charm)` but differing in every
other field. -/
def appKeyA : Application := ⟨"keystone", "m1", "keystone", "ch", "", "x", []⟩

/-- Same identity key as `appKeyA`, different mutable fields. -/
def appKeyB : Application :=
  ⟨"keystone", "m2", "keystone", "cs", "distro", "y",
    [("keystone/0", ⟨"17", none⟩)]⟩

/-- Witness for C7 at concrete applications and a concrete hash
function. -/
theorem application_identity_key_witness :
    (Application.eqPy appKeyA appKeyB = true ↔
      (appKeyA.name = appKeyB.name ∧ appKeyA.charm = appKeyB.charm)) ∧
    Application.hashPy (fun s => (s.length : Int)) appKeyA =
      Application.hashPy (fun s => (s.length : Int)) appKeyB :=
  ⟨(application_identity_key appKeyA appKeyB (fun s => (s.length : Int))).1,
   (application_identity_key appKeyA appKeyB (fun s => (s.length : Int))).2
     (by decide)⟩

/-- A unit of `cou.utils.juju_utils`: only its name is relevant to
`stringify_units`. -/
structure JujuUnit where
  name : String
deriving DecidableEq, Repr

/-- `stringify_units` (src/cou/utils/app_utils.py lines 138-147):
`", ".join(sorted([unit.name for unit in units]))`; Python `sorted` is
an ascending stable sort, embedded as insertion sort by `≤`. -/
def stringify_units (units : List JujuUnit) : String :=
  String.intercalate ", "
    (List.insertionSort (fun a b => a ≤ b) (units.map JujuUnit.name))

/-- C10: `stringify_units` joins the unit names with `", "` in ascending
alphabetical order, and the result is invariant under any permutation of
the input. -/
theorem stringify_units_sorted_perm (us vs : List JujuUnit)
    (h : List.Perm (us.map JujuUnit.name) (vs.map JujuUnit.name)) :
    stringify_units us =
      String.intercalate ", "
        (List.insertionSort (fun a b => a ≤ b) (us.map JujuUnit.name)) ∧
    (List.insertionSort (fun a b => a ≤ b) (us.map JujuUnit.name)).Sorted
      (fun a b => a ≤ b) ∧
    stringify_units us = stringify_units vs := by
  refine ⟨rfl, List.sorted_insertionSort _ _, ?_⟩
  have h1 : List.Perm
      (List.insertionSort (fun a b => a ≤ b) (us.map JujuUnit.name))
      (List.insertionSort (fun a b => a ≤ b) (vs.map JujuUnit.name)) :=
    (List.perm_insertionSort _ _).trans
      (h.trans (List.perm_insertionSort _ _).symm)
  have heq := List.eq_of_perm_of_sorted h1
    (List.sorted_insertionSort _ _) (List.sorted_insertionSort _ _)
  rw [stringify_units, stringify_units, heq]

/-- Witness for C10: two orderings of the same unit names produce the
same sorted string. -/
theorem stringify_units_sorted_perm_witness :
    stringify_units [⟨"cinder/2"⟩, ⟨"cinder/0"⟩, ⟨"cinder/1"⟩] =
      stringify_units [⟨"cinder/0"⟩, ⟨"cinder/1"⟩, ⟨"cinder/2"⟩] :=
  (stringify_units_sorted_perm
    [⟨"cinder/2"⟩, ⟨"cinder/0"⟩, ⟨"cinder/1"⟩]
    [⟨"cinder/0"⟩, ⟨"cinder/1"⟩, ⟨"cinder/2"⟩] (by decide)).2.2

/-- Binary step of Python `max` over releases: keep the argument with the
larger rank, preferring the earlier one on ties (Python `max` replaces
the running value only on a strictly greater element). -/
def maxRelease (a b : OSRelease) : OSRelease :=
  if a.rank < b.rank then b else a

/-- `max(compatible_os_versions)`: `none` on the empty collection (Python
would raise there, but the source only calls `max` on a non-empty one). -/
def listMaxRelease : List OSRelease → Option OSRelease
  | [] => none
  | r :: rs => some (rs.foldl maxRelease r)

/-- The per-unit loop of `Application.__post_init__`
(src/cou/apps/app.py lines 71-91): for each unit of the status snapshot,
store the workload version, look up its compatible releases via the
external `OpenStackCodenameLookup.lookup` collaborator (passed as a
function), and set `os_version` to the latest compatible release, or
`None` (with a non-fatal warning) when there is none. -/
def resolve_units (lookup : String → String → List OSRelease)
    (charm : String) (statusUnits : List (String × String)) :
    List (String × UnitDetails) :=
  statusUnits.map (fun u => (u.1, ⟨u.2, listMaxRelease (lookup charm u.2)⟩))

/-- `maxRelease` returns one of its two arguments. -/
theorem maxRelease_mem (a b : OSRelease) :
    maxRelease a b = a ∨ maxRelease a b = b := by
  unfold maxRelease
  split
  · right; rfl
  · left; rfl

/-- The rank of `maxRelease a b` dominates the rank of `a`. -/
theorem maxRelease_le_left (a b : OSRelease) :
    a.rank ≤ (maxRelease a b).rank := by
  unfold maxRelease
  split <;> omega

/-- The rank of `maxRelease a b` dominates the rank of `b`. -/
theorem maxRelease_le_right (a b : OSRelease) :
    b.rank ≤ (maxRelease a b).rank := by
  unfold maxRelease
  split <;> omega

/-- A `maxRelease` fold returns its seed or a list element. -/
theorem foldl_maxRelease_mem (rs : List OSRelease) (r : OSRelease) :
    rs.foldl maxRelease r = r ∨ rs.foldl maxRelease r ∈ rs := by
  induction rs generalizing r with
  | nil => simp
  | cons x xs ih =>
    simp only [List.foldl_cons]
    rcases ih (maxRelease r x) with h | h
    · rcases maxRelease_mem r x with h2 | h2
      · left
        rw [h, h2]
      · right
        rw [h, h2]
        simp
    · right
      simp [h]

/-- A `maxRelease` fold dominates the rank of its seed. -/
theorem foldl_maxRelease_seed (rs : List OSRelease) (r : OSRelease) :
    r.rank ≤ (rs.foldl maxRelease r).rank := by
  induction rs generalizing r with
  | nil => simp
  | cons x xs ih =>
    simp only [List.foldl_cons]
    exact le_trans (maxRelease_le_left r x) (ih (maxRelease r x))

/-- A `maxRelease` fold dominates the rank of the seed and of every list
element. -/
theorem foldl_maxRelease_ge (rs : List OSRelease) (r x : OSRelease)
    (hx : x = r ∨ x ∈ rs) : x.rank ≤ (rs.foldl maxRelease r).rank := by
  induction rs generalizing r with
  | nil =>
    rcases hx with h | h
    · rw [h]
      simp
    · simp at h
  | cons y ys ih =>
    simp only [List.foldl_cons]
    rcases hx with h | h
    · rw [h]
      exact le_trans (maxRelease_le_left r y) (foldl_maxRelease_seed ys _)
    · rcases List.mem_cons.mp h with h2 | h2
      · rw [h2]
        exact le_trans (maxRelease_le_right r y) (foldl_maxRelease_seed ys _)
      · exact ih (maxRelease r y) (Or.inr h2)

/-- C6: `__post_init__` processes every unit of the status snapshot
(names and count preserved — a failed lookup never aborts construction);
a unit whose lookup yields no compatible release is marked unresolved
(`None`); a unit whose lookup yields at least one compatible release is
assigned a release of the lookup result whose rank dominates every
compatible candidate (the highest, i.e. most recent, one). -/
theorem resolve_units_spec (lookup : String → String → List OSRelease)
    (charm : String) (statusUnits : List (String × String)) :
    ((resolve_units lookup charm statusUnits).map Prod.fst =
      statusUnits.map Prod.fst) ∧
    ((resolve_units lookup charm statusUnits).length = statusUnits.length) ∧
    (∀ u ∈ statusUnits, lookup charm u.2 = [] →
      (u.1, (⟨u.2, none⟩ : UnitDetails)) ∈
        resolve_units lookup charm statusUnits) ∧
    (∀ u ∈ statusUnits, lookup charm u.2 ≠ [] →
      ∃ m, (u.1, (⟨u.2, some m⟩ : UnitDetails)) ∈
          resolve_units lookup charm statusUnits ∧
        m ∈ lookup charm u.2 ∧ ∀ x ∈ lookup charm u.2, x.rank ≤ m.rank) := by
  refine ⟨?_, ?_, ?_, ?_⟩
  · simp [resolve_units, Function.comp]
  · simp [resolve_units]
  · intro u hu hemp
    rw [resolve_units, List.mem_map]
    exact ⟨u, hu, by rw [hemp]; rfl⟩
  · intro u hu hne
    rcases hl : lookup charm u.2 with _ | ⟨y, ys⟩
    · exact absurd hl hne
    refine ⟨ys.foldl maxRelease y, ?_, ?_, ?_⟩
    · rw [resolve_units, List.mem_map]
      exact ⟨u, hu, by rw [hl]; rfl⟩
    · rcases foldl_maxRelease_mem ys y with h | h
      · rw [h]
        simp
      · simp [h]
    · intro x hx
      rcases List.mem_cons.mp hx with h | h
      · exact foldl_maxRelease_ge ys y x (Or.inl h)
      · exact foldl_maxRelease_ge ys y x (Or.inr h)

/-- A concrete compatibility table: keystone workload 17.0.1 is
compatible with two releases, anything else with none. -/
def lookupDemo : String → String → List OSRelease :=
  fun charm wv =>
    if charm == "keystone" && wv == "17.0.1" then
      [⟨"ussuri", 1⟩, ⟨"victoria", 2⟩]
    else []

/-- Witness for C6 at a concrete snapshot: the multi-candidate unit gets
the highest release, the unknown-version unit is unresolved, and both
units survive construction. -/
theorem resolve_units_spec_witness :
    ((resolve_units lookupDemo "keystone"
        [("keystone/0", "17.0.1"), ("keystone/1", "0.0")]).length = 2) ∧
    (("keystone/1", (⟨"0.0", none⟩ : UnitDetails)) ∈
      resolve_units lookupDemo "keystone"
        [("keystone/0", "17.0.1"), ("keystone/1", "0.0")]) ∧
    (∃ m, ("keystone/0", (⟨"17.0.1", some m⟩ : UnitDetails)) ∈
        resolve_units lookupDemo "keystone"
          [("keystone/0", "17.0.1"), ("keystone/1", "0.0")] ∧
      m ∈ lookupDemo "keystone" "17.0.1" ∧
      ∀ x ∈ lookupDemo "keystone" "17.0.1", x.rank ≤ m.rank) :=
  ⟨(resolve_units_spec lookupDemo "keystone"
      [("keystone/0", "17.0.1"), ("keystone/1", "0.0")]).2.1,
   (resolve_units_spec lookupDemo "keystone"
      [("keystone/0", "17.0.1"), ("keystone/1", "0.0")]).2.2.1
     ("keystone/1", "0.0") (by decide) (by decide),
   (resolve_units_spec lookupDemo "keystone"
      [("keystone/0", "17.0.1"), ("keystone/1", "0.0")]).2.2.2
     ("keystone/0", "17.0.1") (by decide) (by decide)⟩

/-- Errors surfaced by the consensus routine: `RunUpgradeError`
(`cou.exceptions`), plus the interpreter's own indexing error for a
malformed version key. -/
inductive UpgradeError where
  | runUpgradeError (msg : String)
  | indexError
deriving DecidableEq, Repr

/-- Modelled from the spec: the static supported-release table
`CEPH_RELEASES` lives in the external compatibility collaborator
(`cou.utils.openstack`, not under src/). -/
def CEPH_RELEASES : List String := ["octopus", "pacific", "quincy"]

/-- Splitting a character list at every occurrence of a separator,
Python `str.split(sep)` style: empty input gives one empty group, and
every separator occurrence starts a new group. -/
def splitCharList (sep : Char) : List Char → List (List Char)
  | [] => [[]]
  | c :: cs =>
    let rest := splitCharList sep cs
    if c = sep then [] :: rest
    else
      match rest with
      | [] => [[c]]
      | g :: gs => (c :: g) :: gs

/-- Python `s.split(sep)` for a one-character separator. -/
def splitStr (sep : Char) (s : String) : List String :=
  (splitCharList sep s.toList).map (fun cs => String.mk cs)

/-- Whether the first list is an initial segment of the second. -/
def leadsWith : List Char → List Char → Bool
  | [], _ => true
  | _ :: _, [] => false
  | a :: as, b :: bs => a == b && leadsWith as bs

/-- Whether `needle` occurs as a contiguous subsequence. -/
def containsSeq (needle : List Char) : List Char → Bool
  | [] => needle.isEmpty
  | b :: bs => leadsWith needle (b :: bs) || containsSeq needle bs

/-- Python's substring test `needle in hay` on strings. -/
def strContains (hay needle : String) : Bool :=
  containsSeq needle.toList hay.toList

/-- The error message for OSDs reporting distinct releases. -/
def mismatchedOsdMsg : String :=
  "OSDs are on mismatched releases. Please manually upgrade them to be on the same release before proceeding."

/-- `_get_current_osd_release` (src/cou/utils/app_utils.py lines
94-135), as a pure function of the parsed `"osd"` field of the
`ceph versions` answer (a key → count mapping; a missing or empty field
is the empty list).  Empty → cannot-get error; more than one entry →
mismatched-releases error; otherwise the release is the fifth
space-separated token of the single key, which must occur in the
comma-joined supported-release string. -/
def get_current_osd_release (osdOutput : List (String × Nat)) :
    Except UpgradeError String :=
  match osdOutput with
  | [] => Except.error (UpgradeError.runUpgradeError
      "Cannot get OSD release information on ceph-mon unit.")
  | [(key, _)] =>
    match (splitStr ' ' key)[4]? with
    | none => Except.error UpgradeError.indexError
    | some current =>
      if strContains (String.intercalate ", " CEPH_RELEASES) current then
        Except.ok current
      else
        Except.error (UpgradeError.runUpgradeError
          ("Cannot recognize Ceph release " ++ current))
  | _ => Except.error (UpgradeError.runUpgradeError mismatchedOsdMsg)

/-- `set_require_osd_release_option` (src/cou/utils/app_utils.py lines
47-66), as a pure function of the two observed answers: the configured
`require-osd-release` value and the parsed `"osd"` field of
`ceph versions`.  Returns the list of corrective `run_on_unit` commands
the routine issues. -/
def set_require_osd_release_option (currentRequireOsdRelease : String)
    (osdOutput : List (String × Nat)) : Except UpgradeError (List String) :=
  match get_current_osd_release osdOutput with
  | Except.error e => Except.error e
  | Except.ok currentRunning =>
    if currentRequireOsdRelease != currentRunning then
      Except.ok ["ceph osd require-osd-release " ++ currentRunning]
    else
      Except.ok []

/-- C3: with more than one distinct reported OSD release the routine
fails with the fleet-inconsistency `RunUpgradeError` and issues no
corrective command; with a single reported release differing from the
configured value it issues exactly one corrective command setting the
configured value to the observed release; with matching values it issues
no command at all. -/
theorem set_require_osd_release_option_spec (req key1 key2 cur : String)
    (n1 n2 : Nat) (rest : List (String × Nat)) :
    (set_require_osd_release_option req ((key1, n1) :: (key2, n2) :: rest) =
      Except.error (UpgradeError.runUpgradeError mismatchedOsdMsg)) ∧
    ((splitStr ' ' key1)[4]? = some cur →
      strContains (String.intercalate ", " CEPH_RELEASES) cur = true →
      req ≠ cur →
      set_require_osd_release_option req [(key1, n1)] =
        Except.ok ["ceph osd require-osd-release " ++ cur]) ∧
    ((splitStr ' ' key1)[4]? = some cur →
      strContains (String.intercalate ", " CEPH_RELEASES) cur = true →
      req = cur →
      set_require_osd_release_option req [(key1, n1)] = Except.ok []) := by
  refine ⟨rfl, ?_, ?_⟩
  · intro h1 h2 hne
    simp [set_require_osd_release_option, get_current_osd_release, h1, h2, hne]
  · intro h1 h2 heq
    simp [set_require_osd_release_option, get_current_osd_release, h1, h2, heq]

/-- A well-formed `ceph versions` osd key reporting octopus. -/
def osdKeyOctopus : String :=
  "ceph version 15.2.17 (8a82819d84cf884bd39c17e3236e0632) octopus (stable)"

/-- A well-formed `ceph versions` osd key reporting nautilus. -/
def osdKeyNautilus : String :=
  "ceph version 14.2.22 (877fa256043e4743620f4677e72dee5e738d1226) nautilus (stable)"

/-- Witness for C3 at the spec's concrete inputs: two distinct reported
releases fail; octopus observed with nautilus configured issues one
corrective command; octopus observed with octopus configured issues
none. -/
theorem set_require_osd_release_option_spec_witness :
    (set_require_osd_release_option "nautilus"
        [(osdKeyOctopus, 2), (osdKeyNautilus, 1)] =
      Except.error (UpgradeError.runUpgradeError mismatchedOsdMsg)) ∧
    (set_require_osd_release_option "nautilus" [(osdKeyOctopus, 3)] =
      Except.ok ["ceph osd require-osd-release octopus"]) ∧
    (set_require_osd_release_option "octopus" [(osdKeyOctopus, 3)] =
      Except.ok []) :=
  ⟨(set_require_osd_release_option_spec "nautilus" osdKeyOctopus
      osdKeyNautilus "octopus" 2 1 []).1,
   (set_require_osd_release_option_spec "nautilus" osdKeyOctopus
      osdKeyNautilus "octopus" 3 1 []).2.1 (by decide) (by decide) (by decide),
   (set_require_osd_release_option_spec "octopus" osdKeyOctopus
      osdKeyNautilus "octopus" 3 1 []).2.2 (by decide) (by decide) rfl⟩

/-- Planning-time outcomes of the release model (`cou.exceptions`). -/
inductive TargetError where
  | NoTargetError
  | HighestReleaseAchieved
  | OutOfSupportRange
deriving DecidableEq, Repr

/-- Modelled from the spec: the canonical ordered release sequence held
by the external compatibility table (`cou.utils.openstack`, not under
src/); the rank of a release is its position in this sequence (§3,
§4.1). -/
def OPENSTACK_CODENAMES : List OSRelease :=
  [⟨"train", 0⟩, ⟨"ussuri", 1⟩, ⟨"victoria", 2⟩, ⟨"wallaby", 3⟩,
   ⟨"xena", 4⟩, ⟨"yoga", 5⟩, ⟨"zed", 6⟩]

/-- The window of releases supported on the focal series: ussuri through
yoga. -/
def focalWindow : List OSRelease :=
  [⟨"ussuri", 1⟩, ⟨"victoria", 2⟩, ⟨"wallaby", 3⟩, ⟨"xena", 4⟩, ⟨"yoga", 5⟩]

/-- Modelled from the spec: the supported series → release-window
compatibility table (§4.1), part of the external static tables (not
under src/). -/
def DISTRO_TO_OPENSTACK_MAPPING : List (String × List OSRelease) :=
  [("focal", focalWindow)]

/-- The successor of a release in the canonical sequence: the entry
whose rank is one greater. -/
def next_release (r : OSRelease) : Option OSRelease :=
  OPENSTACK_CODENAMES.find? (fun c => c.rank == r.rank + 1)

/-- Modelled from the spec: `determine_upgrade_target`
(`cou.steps.plan`, not under src/ — only its tests are).  Spec §4.1:
unset release or series → `NoTargetError`; a (release, series) pair not
present in the supported window → `OutOfSupportRange`; the last
supported release of the series → `HighestReleaseAchieved`; otherwise
the unique successor release in the canonical sequence. -/
def determine_upgrade_target (rel : Option OSRelease)
    (series : Option String) : Except TargetError OSRelease :=
  match rel, series with
  | none, _ => Except.error TargetError.NoTargetError
  | some _, none => Except.error TargetError.NoTargetError
  | some r, some s =>
    let window := (DISTRO_TO_OPENSTACK_MAPPING.lookup s).getD []
    if r ∈ window then
      if window.getLast? = some r then
        Except.error TargetError.HighestReleaseAchieved
      else
        match next_release r with
        | none => Except.error TargetError.NoTargetError
        | some t => Except.ok t
    else Except.error TargetError.OutOfSupportRange

/-- Looking up the focal series in the support table. -/
theorem lookup_focal :
    DISTRO_TO_OPENSTACK_MAPPING.lookup "focal" = some focalWindow := by
  decide

/-- Any other series is absent from the support table. -/
theorem lookup_not_focal (s : String) (hs : s ≠ "focal") :
    DISTRO_TO_OPENSTACK_MAPPING.lookup s = none := by
  have hb : (s == "focal") = false := by simpa using hs
  simp [DISTRO_TO_OPENSTACK_MAPPING, List.lookup, hb]

/-- A successful series lookup forces the focal window. -/
theorem lookup_extract (s : String) (window : List OSRelease)
    (hl : DISTRO_TO_OPENSTACK_MAPPING.lookup s = some window) :
    s = "focal" ∧ window = focalWindow := by
  by_cases hs : s = "focal"
  · subst hs
    rw [lookup_focal] at hl
    exact ⟨rfl, (Option.some_inj.mp hl).symm⟩
  · rw [lookup_not_focal s hs] at hl
    exact absurd hl (by simp)

/-- C2: `determine_upgrade_target` is deterministic (a pure function of
its inputs) and monotonic: on a supported, non-terminal (release,
series) pair it returns the release whose rank is exactly one greater
than the input's; on the last supported release of the series it raises
`HighestReleaseAchieved`; on a pair outside the supported window it
raises `OutOfSupportRange`; on an unset release or series it raises
`NoTargetError`. -/
theorem determine_upgrade_target_spec (r : OSRelease) (s : String)
    (window : List OSRelease) :
    (determine_upgrade_target none (some s) =
      Except.error TargetError.NoTargetError) ∧
    (determine_upgrade_target (some r) none =
      Except.error TargetError.NoTargetError) ∧
    (DISTRO_TO_OPENSTACK_MAPPING.lookup s = some window → r ∈ window →
      window.getLast? = some r →
      determine_upgrade_target (some r) (some s) =
        Except.error TargetError.HighestReleaseAchieved) ∧
    (DISTRO_TO_OPENSTACK_MAPPING.lookup s = some window → r ∈ window →
      window.getLast? ≠ some r →
      ∃ t, determine_upgrade_target (some r) (some s) = Except.ok t ∧
        t.rank = r.rank + 1) ∧
    (DISTRO_TO_OPENSTACK_MAPPING.lookup s = some window → r ∉ window →
      determine_upgrade_target (some r) (some s) =
        Except.error TargetError.OutOfSupportRange) ∧
    (DISTRO_TO_OPENSTACK_MAPPING.lookup s = none →
      determine_upgrade_target (some r) (some s) =
        Except.error TargetError.OutOfSupportRange) := by
  refine ⟨rfl, rfl, ?_, ?_, ?_, ?_⟩
  · intro hl hmem hlast
    obtain ⟨hs, hw⟩ := lookup_extract s window hl
    subst hs
    subst hw
    fin_cases hmem
    · exact absurd hlast (by decide)
    · exact absurd hlast (by decide)
    · exact absurd hlast (by decide)
    · exact absurd hlast (by decide)
    · rfl
  · intro hl hmem hlast
    obtain ⟨hs, hw⟩ := lookup_extract s window hl
    subst hs
    subst hw
    fin_cases hmem
    · exact ⟨⟨"victoria", 2⟩, rfl, rfl⟩
    · exact ⟨⟨"wallaby", 3⟩, rfl, rfl⟩
    · exact ⟨⟨"xena", 4⟩, rfl, rfl⟩
    · exact ⟨⟨"yoga", 5⟩, rfl, rfl⟩
    · exact absurd (by decide) hlast
  · intro hl hmem
    obtain ⟨hs, hw⟩ := lookup_extract s window hl
    subst hs
    subst hw
    simp only [determine_upgrade_target, lookup_focal, Option.getD_some]
    rw [if_neg hmem]
  · intro hl
    simp [determine_upgrade_target, hl]

/-- Witness for C2 at concrete inputs: victoria→wallaby on focal, yoga
terminal on focal, zed out of range on focal, bionic unsupported, unset
inputs rejected. -/
theorem determine_upgrade_target_spec_witness :
    (determine_upgrade_target none (some "focal") =
      Except.error TargetError.NoTargetError) ∧
    (determine_upgrade_target (some ⟨"victoria", 2⟩) none =
      Except.error TargetError.NoTargetError) ∧
    (∃ t, determine_upgrade_target (some ⟨"victoria", 2⟩) (some "focal") =
        Except.ok t ∧ t.rank = 2 + 1) ∧
    (determine_upgrade_target (some ⟨"yoga", 5⟩) (some "focal") =
      Except.error TargetError.HighestReleaseAchieved) ∧
    (determine_upgrade_target (some ⟨"zed", 6⟩) (some "focal") =
      Except.error TargetError.OutOfSupportRange) ∧
    (determine_upgrade_target (some ⟨"train", 0⟩) (some "bionic") =
      Except.error TargetError.OutOfSupportRange) :=
  ⟨(determine_upgrade_target_spec ⟨"victoria", 2⟩ "focal" focalWindow).1,
   (determine_upgrade_target_spec ⟨"victoria", 2⟩ "focal" focalWindow).2.1,
   (determine_upgrade_target_spec ⟨"victoria", 2⟩ "focal"
      focalWindow).2.2.2.1 (by decide) (by decide) (by decide),
   (determine_upgrade_target_spec ⟨"yoga", 5⟩ "focal" focalWindow).2.2.1
     (by decide) (by decide) (by decide),
   (determine_upgrade_target_spec ⟨"zed", 6⟩ "focal"
      focalWindow).2.2.2.2.1 (by decide) (by decide),
   (determine_upgrade_target_spec ⟨"train", 0⟩ "bionic"
      focalWindow).2.2.2.2.2 (by decide)⟩

/-- A deferred remote action bound into a step node at build time (§6,
§4.4); its identity is the described intent, which suffices to tell a
wait-for-idle step from every other step. -/
inductive RemoteAction where
  | upgradePackages (unit : String)
  | upgradeCharm (app channel : String) (switch : Option String)
  | setAppConfig (app key value : String)
  | waitForIdle (timeout : Nat) (apps : Option (List String))
      (idlePeriod : Option Nat) (raiseOnBlocked : Bool)
  | checkUpgrade (app target : String)
  | backup
deriving DecidableEq, Repr

/-- A step-tree node (§3, §4.3): description, parallel flag, optional
deferred action, ordered child steps. -/
inductive UpgradeStep where
  | mk (description : String) (parallel : Bool)
      (action : Option RemoteAction) (subSteps : List UpgradeStep)

/-- The description of a step. -/
def UpgradeStep.description : UpgradeStep → String
  | .mk d _ _ _ => d

/-- The parallel flag of a step. -/
def UpgradeStep.parallel : UpgradeStep → Bool
  | .mk _ p _ _ => p

/-- The deferred action of a step. -/
def UpgradeStep.action : UpgradeStep → Option RemoteAction
  | .mk _ _ a _ => a

/-- The ordered child steps of a step. -/
def UpgradeStep.subSteps : UpgradeStep → List UpgradeStep
  | .mk _ _ _ s => s

mutual

/-- All deferred actions of a step tree, in depth-first order. -/
def stepActions : UpgradeStep → List RemoteAction
  | .mk _ _ a subs => a.toList ++ stepActionsList subs

/-- All deferred actions of a forest of step trees. -/
def stepActionsList : List UpgradeStep → List RemoteAction
  | [] => []
  | s :: ss => stepActions s ++ stepActionsList ss

end

/-- Whether an action is a wait-for-idle action. -/
def isWaitAction : RemoteAction → Bool
  | .waitForIdle _ _ _ _ => true
  | .upgradePackages _ => false
  | .upgradeCharm _ _ _ => false
  | .setAppConfig _ _ _ => false
  | .checkUpgrade _ _ => false
  | .backup => false

/-- The wait-for-idle actions occurring anywhere in a step tree. -/
def waitActions (s : UpgradeStep) : List RemoteAction :=
  (stepActions s).filter isWaitAction

/-- Modelled from the spec: the fixed coordinator charm set (§4.4 step 6
and the expected plans in src/tests/unit/steps/test_plan.py): the
cluster-messaging bus, the storage-monitor role, and the identity
service. -/
def COORDINATOR_CHARMS : List String := ["rabbitmq-server", "ceph-mon", "keystone"]

/-- The application attributes the plan generator consumes. -/
structure AppInfo where
  name : String
  charm : String
  units : List String
  origin_setting : String
deriving DecidableEq, Repr

/-- Modelled from the spec: the post-upgrade wait step (§4.4 step 6).
Coordinator charms wait 1800s for the whole deployment; every other
application waits 300s for itself only. -/
def waitStepFor (modelName : String) (app : AppInfo) : UpgradeStep :=
  if app.charm ∈ COORDINATOR_CHARMS then
    .mk ("Wait 1800s for model " ++ modelName ++ " to reach the idle state.")
      false (some (.waitForIdle 1800 none none false)) []
  else
    .mk ("Wait 300s for app " ++ app.name ++ " to reach the idle state.")
      false (some (.waitForIdle 300 (some [app.name]) none false)) []

/-- Modelled from the spec: the principal-application upgrade plan (§4.4
steps 1-7; `cou.apps.base.OpenStackApplication.generate_upgrade_plan` is
not under src/ — only the expected-plan builder in
src/tests/unit/steps/test_plan.py is): parallel package upgrades,
refresh to the current channel, disable the manual-upgrade gate, switch
to the target channel, update the origin config, wait, verify. -/
def generate_principal_plan (app : AppInfo) (modelName target prev : String) :
    UpgradeStep :=
  .mk ("Upgrade plan for '" ++ app.name ++ "' to " ++ target) false none
    [.mk ("Upgrade software packages of '" ++ app.name ++
        "' from the current APT repositories") true none
        (app.units.map (fun u =>
          .mk ("Upgrade software packages on unit " ++ u) false
            (some (.upgradePackages u)) [])),
     .mk ("Refresh '" ++ app.name ++ "' to the latest revision of '" ++
        prev ++ "/stable'") false
        (some (.upgradeCharm app.name (prev ++ "/stable") none)) [],
     .mk ("Change charm config of '" ++ app.name ++
        "' 'action-managed-upgrade' to False.") false
        (some (.setAppConfig app.name "action-managed-upgrade" "False")) [],
     .mk ("Upgrade '" ++ app.name ++ "' to the new channel: '" ++ target ++
        "/stable'") false
        (some (.upgradeCharm app.name (target ++ "/stable") none)) [],
     .mk ("Change charm config of '" ++ app.name ++ "' '" ++
        app.origin_setting ++ "' to 'cloud:focal-" ++ target ++ "'") false
        (some (.setAppConfig app.name app.origin_setting
          ("cloud:focal-" ++ target))) [],
     waitStepFor modelName app,
     .mk ("Check if the workload of '" ++ app.name ++ "' has been upgraded")
        false (some (.checkUpgrade app.name target)) []]

/-- Modelled from the spec: the subordinate-application upgrade plan
(§4.4: only steps 2 and 4 — refresh then switch — no package, config,
wait or verify steps). -/
def generate_subordinate_plan (app : AppInfo) (target prev : String) :
    UpgradeStep :=
  .mk ("Upgrade plan for '" ++ app.name ++ "' to " ++ target) false none
    [.mk ("Refresh '" ++ app.name ++ "' to the latest revision of '" ++
        prev ++ "/stable'") false
        (some (.upgradeCharm app.name (prev ++ "/stable") none)) [],
     .mk ("Upgrade '" ++ app.name ++ "' to the new channel: '" ++ target ++
        "/stable'") false
        (some (.upgradeCharm app.name (target ++ "/stable") none)) []]

/-- The actions of the per-unit package-upgrade leaves are exactly the
package-upgrade actions. -/
theorem stepActionsList_unit_steps (us : List String) :
    stepActionsList (us.map (fun u =>
      UpgradeStep.mk ("Upgrade software packages on unit " ++ u) false
        (some (RemoteAction.upgradePackages u)) [])) =
      us.map RemoteAction.upgradePackages := by
  induction us with
  | nil => rfl
  | cons x xs ih => simp [stepActionsList, stepActions, ih]

/-- Package-upgrade actions are never wait actions. -/
theorem filter_wait_packages (us : List String) :
    (us.map RemoteAction.upgradePackages).filter isWaitAction = [] := by
  induction us with
  | nil => rfl
  | cons x xs ih => simp [isWaitAction, ih]

/-- C4: a subordinate application's plan has exactly two steps — refresh
to the current release's channel, then switch to the target release's
channel — and contains no wait-for-idle step anywhere; a principal
application whose charm is in the coordinator set gets exactly one wait
step, waiting 1800s for the entire deployment, while every other
principal gets exactly one wait step waiting 300s for itself only. -/
theorem upgrade_plan_roles (app : AppInfo) (modelName target prev : String) :
    ((generate_subordinate_plan app target prev).subSteps.length = 2) ∧
    ((generate_subordinate_plan app target prev).subSteps.map
        UpgradeStep.action =
      [some (RemoteAction.upgradeCharm app.name (prev ++ "/stable") none),
       some (RemoteAction.upgradeCharm app.name (target ++ "/stable") none)]) ∧
    (waitActions (generate_subordinate_plan app target prev) = []) ∧
    (app.charm ∈ COORDINATOR_CHARMS →
      waitActions (generate_principal_plan app modelName target prev) =
        [RemoteAction.waitForIdle 1800 none none false]) ∧
    (app.charm ∉ COORDINATOR_CHARMS →
      waitActions (generate_principal_plan app modelName target prev) =
        [RemoteAction.waitForIdle 300 (some [app.name]) none false]) := by
  refine ⟨rfl, rfl, rfl, ?_, ?_⟩
  · intro hmem
    simp [waitActions, generate_principal_plan, stepActions, stepActionsList,
      waitStepFor, if_pos hmem, stepActionsList_unit_steps,
      List.filter_append, filter_wait_packages, isWaitAction]
  · intro hmem
    simp [waitActions, generate_principal_plan, stepActions, stepActionsList,
      waitStepFor, if_neg hmem, stepActionsList_unit_steps,
      List.filter_append, filter_wait_packages, isWaitAction]

/-- A coordinator-set principal application. -/
def appKeystoneInfo : AppInfo :=
  ⟨"keystone", "keystone", ["keystone/0", "keystone/1"], "openstack-origin"⟩

/-- A non-coordinator principal application. -/
def appCinderInfo : AppInfo :=
  ⟨"cinder", "cinder", ["cinder/0"], "openstack-origin"⟩

/-- Witness for C4 at concrete applications. -/
theorem upgrade_plan_roles_witness :
    (waitActions (generate_subordinate_plan appKeystoneInfo "victoria"
      "ussuri") = []) ∧
    (waitActions (generate_principal_plan appKeystoneInfo "m" "victoria"
        "ussuri") = [RemoteAction.waitForIdle 1800 none none false]) ∧
    (waitActions (generate_principal_plan appCinderInfo "m" "victoria"
        "ussuri") =
      [RemoteAction.waitForIdle 300 (some ["cinder"]) none false]) :=
  ⟨(upgrade_plan_roles appKeystoneInfo "m" "victoria" "ussuri").2.2.1,
   (upgrade_plan_roles appKeystoneInfo "m" "victoria" "ussuri").2.2.2.1
     (by decide),
   (upgrade_plan_roles appCinderInfo "m" "victoria" "ussuri").2.2.2.2
     (by decide)⟩

/-- One application's plan-generation outcome: a generated sub-plan, the
`HaltUpgradePlanGeneration` signal, or a genuine error. -/
inductive GenOutcome where
  | ok (plan : UpgradeStep)
  | halt
  | err (msg : String)

/-- Modelled from the spec: the per-application loop of
`create_upgrade_group` (`cou.steps.plan`, not under src/ — only its
tests are).  §4.4: Halt removes exactly that application's subtree; any
other exception aborts aggregation and propagates. -/
def collectSubPlans : List (String × GenOutcome) →
    Except String (List UpgradeStep)
  | [] => Except.ok []
  | (_, GenOutcome.ok p) :: rest =>
    match collectSubPlans rest with
    | Except.ok ps => Except.ok (p :: ps)
    | Except.error e => Except.error e
  | (_, GenOutcome.halt) :: rest => collectSubPlans rest
  | (_, GenOutcome.err m) :: _ => Except.error m

/-- Modelled from the spec: `create_upgrade_group` builds a sequential
grouping step with no action of its own, containing one sub-plan per
application whose generation produced one. -/
def create_upgrade_group (apps : List (String × GenOutcome))
    (description : String) : Except String UpgradeStep :=
  match collectSubPlans apps with
  | Except.ok subs => Except.ok (UpgradeStep.mk description false none subs)
  | Except.error e => Except.error e

/-- The generated sub-plans of a list of applications, in order. -/
def okPlans : List (String × GenOutcome) → List UpgradeStep
  | [] => []
  | (_, GenOutcome.ok p) :: rest => p :: okPlans rest
  | (_, GenOutcome.halt) :: rest => okPlans rest
  | (_, GenOutcome.err _) :: rest => okPlans rest

/-- A Halt entry is skipped: collection over a list with one Halt entry
equals collection over the list without it. -/
theorem collectSubPlans_halt (pre post : List (String × GenOutcome))
    (n : String) :
    collectSubPlans (pre ++ (n, GenOutcome.halt) :: post) =
      collectSubPlans (pre ++ post) := by
  induction pre with
  | nil => rfl
  | cons a as ih =>
    rcases a with ⟨nm, o⟩
    cases o <;> simp [collectSubPlans, ih]

/-- When every entry generated a plan, collection succeeds with one
sub-plan per entry. -/
theorem collectSubPlans_all_ok (apps : List (String × GenOutcome))
    (h : ∀ a ∈ apps, ∃ p, a.2 = GenOutcome.ok p) :
    collectSubPlans apps = Except.ok (okPlans apps) := by
  induction apps with
  | nil => rfl
  | cons a as ih =>
    obtain ⟨p, hp⟩ := h a (by simp)
    rcases a with ⟨nm, o⟩
    simp only at hp
    subst hp
    rw [collectSubPlans, ih (fun x hx => h x (by simp [hx]))]
    rfl

/-- `okPlans` yields one plan per entry when every entry generated one. -/
theorem okPlans_length (apps : List (String × GenOutcome))
    (h : ∀ a ∈ apps, ∃ p, a.2 = GenOutcome.ok p) :
    (okPlans apps).length = apps.length := by
  induction apps with
  | nil => rfl
  | cons a as ih =>
    obtain ⟨p, hp⟩ := h a (by simp)
    rcases a with ⟨nm, o⟩
    simp only at hp
    subst hp
    simp [okPlans, ih (fun x hx => h x (by simp [hx]))]

/-- An error entry propagates when the entries before it all generated
plans. -/
theorem collectSubPlans_err (pre post : List (String × GenOutcome))
    (n m : String)
    (hpre : ∀ a ∈ pre, ∃ p, a.2 = GenOutcome.ok p) :
    collectSubPlans (pre ++ (n, GenOutcome.err m) :: post) =
      Except.error m := by
  induction pre with
  | nil => rfl
  | cons a as ih =>
    obtain ⟨p, hp⟩ := hpre a (by simp)
    rcases a with ⟨nm, o⟩
    simp only at hp
    subst hp
    rw [List.cons_append, collectSubPlans,
      ih (fun x hx => hpre x (by simp [hx]))]

/-- C5: when exactly one application's generation raises the Halt signal
and every other application generates a plan, the aggregate plan
contains a sub-plan for every other application in order and omits only
the halted one, surfacing no error; when one application's generation
raises a genuine error, `create_upgrade_group` propagates that error and
returns no plan. -/
theorem create_upgrade_group_outcomes (pre post : List (String × GenOutcome))
    (n m d : String)
    (h : ∀ a ∈ pre ++ post, ∃ p, a.2 = GenOutcome.ok p) :
    (create_upgrade_group (pre ++ (n, GenOutcome.halt) :: post) d =
      Except.ok (UpgradeStep.mk d false none (okPlans (pre ++ post)))) ∧
    ((okPlans (pre ++ post)).length = pre.length + post.length) ∧
    (create_upgrade_group (pre ++ (n, GenOutcome.err m) :: post) d =
      Except.error m) := by
  refine ⟨?_, ?_, ?_⟩
  · rw [create_upgrade_group, collectSubPlans_halt,
      collectSubPlans_all_ok _ h]
  · rw [okPlans_length _ h, List.length_append]
  · rw [create_upgrade_group, collectSubPlans_err]
    intro a ha
    exact h a (List.mem_append_left _ ha)

/-- A concrete generated sub-plan for the first neighbouring app. -/
def planA : UpgradeStep := UpgradeStep.mk "Upgrade plan for 'app-a'" false none []

/-- A concrete generated sub-plan for the second neighbouring app. -/
def planB : UpgradeStep := UpgradeStep.mk "Upgrade plan for 'app-b'" false none []

/-- Witness for C5: with `app-a` and `app-b` generating plans, a halting
`test-app` between them is omitted while both neighbours' sub-plans are
kept, and an erring `test-app` propagates its error. -/
theorem create_upgrade_group_outcomes_witness :
    (create_upgrade_group
        [("app-a", GenOutcome.ok planA), ("test-app", GenOutcome.halt),
         ("app-b", GenOutcome.ok planB)] "test" =
      Except.ok (UpgradeStep.mk "test" false none [planA, planB])) ∧
    (create_upgrade_group
        [("app-a", GenOutcome.ok planA), ("test-app", GenOutcome.err "test"),
         ("app-b", GenOutcome.ok planB)] "test" =
      Except.error "test") :=
  ⟨(create_upgrade_group_outcomes [("app-a", GenOutcome.ok planA)]
      [("app-b", GenOutcome.ok planB)] "test-app" "test" "test"
      (by
        intro a ha
        simp only [List.mem_append, List.mem_singleton] at ha
        rcases ha with h | h <;> subst h <;> exact ⟨_, rfl⟩)).1,
   (create_upgrade_group_outcomes [("app-a", GenOutcome.ok planA)]
      [("app-b", GenOutcome.ok planB)] "test-app" "test" "test"
      (by
        intro a ha
        simp only [List.mem_append, List.mem_singleton] at ha
        rcases ha with h | h <;> subst h <;> exact ⟨_, rfl⟩)).2.2⟩

/-- Modelled from the spec: `generate_plan` (`cou.steps.plan`, not under
src/).  §4.4 aggregation: a deployment-wide idle-state verification step
and a data backup step, both sequential, precede the control-plane
principal and subordinate application groups. -/
def generate_plan (modelName current target prev : String)
    (principals subordinates : List AppInfo) : UpgradeStep :=
  .mk ("Upgrade cloud from '" ++ current ++ "' to '" ++ target ++ "'")
    false none
    [.mk "Verify that all OpenStack applications are in idle state" false
        (some (.waitForIdle 11 none (some 10) true)) [],
     .mk "Backup mysql databases" false (some .backup) [],
     .mk "Control Plane principal(s) upgrade plan" false none
        (principals.map (fun a => generate_principal_plan a modelName target prev)),
     .mk "Control Plane subordinate(s) upgrade plan" false none
        (subordinates.map (fun a => generate_subordinate_plan a target prev))]

/-- C8: the deployment-wide plan's first two steps, before any
application group, are a deployment-wide idle-state verification step
(raising on a blocked deployment) and a data backup step, both
sequential; the control-plane principal group and then the control-plane
subordinate group follow them. -/
theorem generate_plan_prelude (modelName current target prev : String)
    (principals subordinates : List AppInfo) :
    ∃ verify backupStep g1 g2,
      (generate_plan modelName current target prev principals
          subordinates).subSteps = [verify, backupStep, g1, g2] ∧
      verify.action = some (RemoteAction.waitForIdle 11 none (some 10) true) ∧
      verify.parallel = false ∧
      backupStep.action = some RemoteAction.backup ∧
      backupStep.parallel = false ∧
      g1.description = "Control Plane principal(s) upgrade plan" ∧
      g1.subSteps = principals.map
        (fun a => generate_principal_plan a modelName target prev) ∧
      g2.description = "Control Plane subordinate(s) upgrade plan" ∧
      g2.subSteps = subordinates.map
        (fun a => generate_subordinate_plan a target prev) :=
  ⟨_, _, _, _, rfl, rfl, rfl, rfl, rfl, rfl, rfl, rfl, rfl⟩

end Cou
